import Mathlib

/-!
Formal model of the pdm configuration session engine.

Rust strings are modelled as `List Char` (`Str`), files as lists of lines or
flat character lists, and the filesystem as an explicit oracle (`Fs`).
Pure functions from the source are translated directly; the terminal renderer
and the pointer handler are outside the scope of the properties below.
-/

set_option maxRecDepth 4000

abbrev Str := List Char

/-- Whitespace test used by trimming; models the whitespace class of
Rust's `str::trim` (restricted to the ASCII whitespace that the
configuration files contain). -/
def wsChar (c : Char) : Bool := c.isWhitespace

/-- Models Rust `str::trim`: drop whitespace from the front, then from the back. -/
def trimStr (l : Str) : Str :=
  ((l.dropWhile wsChar).reverse.dropWhile wsChar).reverse

/-- Models Rust `str::split_once('=')`: split at the first `=`, or `none`. -/
def splitFirstEq : Str → Option (Str × Str)
  | [] => none
  | c :: rest =>
      if c = '=' then some ([], rest)
      else (splitFirstEq rest).map (fun p => (c :: p.1, p.2))

/-- Splits a character list at every occurrence of `sep` (so a trailing
separator yields a trailing empty piece). -/
def splitOnChar (sep : Char) : Str → List Str
  | [] => [[]]
  | c :: rest =>
      if c = sep then [] :: splitOnChar sep rest
      else
        match splitOnChar sep rest with
        | [] => [[c]]
        | h :: t => (c :: h) :: t

/-- Splits file content into its lines. -/
def splitNl (l : Str) : List Str := splitOnChar '\n' l

/-- Joins lines, terminating each with a newline (the serializer emits every
line with a trailing newline). -/
def joinNl : List Str → Str
  | [] => []
  | l :: ls => l ++ '\n' :: joinNl ls

/-- Models Rust `str::contains(substring)`. -/
def strContains (needle : Str) : Str → Bool
  | [] => needle.isEmpty
  | c :: rest => needle.isPrefixOf (c :: rest) || strContains needle rest

/-- Insert a value into a bucket keyed by `k`, appending to the bucket's list
(mirrors `HashMap::entry(k).or_default().push(x)`; bucket creation order is
the first-insertion order). -/
def bucketAdd {α : Type} : List (Str × List α) → Str → α → List (Str × List α)
  | [], k, x => [(k, [x])]
  | (k0, xs) :: rest, k, x =>
      if k0 = k then (k0, xs ++ [x]) :: rest
      else (k0, xs) :: bucketAdd rest k x

/-- Lexicographic comparison of character lists by code point; agrees with
Rust's byte-wise `str` ordering on UTF-8. -/
def cmpStr : Str → Str → Ordering
  | [], [] => .eq
  | [], _ :: _ => .lt
  | _ :: _, [] => .gt
  | a :: l1, b :: l2 =>
      match compare a b with
      | .eq => cmpStr l1 l2
      | o => o

/-- Ordering on `Option Str` with `none` first, as Rust orders `Option`. -/
def cmpOptStr : Option Str → Option Str → Ordering
  | none, none => .eq
  | none, some _ => .lt
  | some _, none => .gt
  | some a, some b => cmpStr a b

/-- Insert `a` into `l` before the first element strictly greater under `cmp`
(after all elements comparing less-or-equal, preserving stability). -/
def insertCmp {α : Type} (cmp : α → α → Ordering) (a : α) : List α → List α
  | [] => [a]
  | b :: t => if cmp a b = .gt then b :: insertCmp cmp a t else a :: b :: t

/-- Stable insertion sort; extensionally equal to Rust's stable `sort_by`
for a total preorder comparator. -/
def sortCmp {α : Type} (cmp : α → α → Ordering) : List α → List α
  | [] => []
  | a :: t => insertCmp cmp a (sortCmp cmp t)

/-- Models Rust `PathBuf::join` for a relative component. -/
def pathJoin (dir : Str) (name : Str) : Str := dir ++ '/' :: name

/-- Models Rust `Path::file_name`: the final path component, or `none` when
the path ends in a parent/current-directory component or a separator. -/
def fileName (p : Str) : Option Str :=
  match (splitOnChar '/' p).getLast? with
  | none => none
  | some c =>
      if c = [] ∨ c = ".".toList ∨ c = "..".toList then none else some c

-- ### Config data model (src/config.rs)

inductive ConfigType
  | string
  | integer
  | boolean
  deriving DecidableEq, Repr

structure ConfigSchema where
  key : Str
  value_type : ConfigType
  sectionName : Str
  description : Str
  default : Str
  deriving DecidableEq, Repr

structure ConfigEntry where
  key : Str
  value : Str
  schema : Option ConfigSchema
  enabled : Bool
  deriving DecidableEq, Repr

/-- Static table of known bitcoin.conf keys (src/config.rs, get_default_schema). -/
def get_default_schema : List ConfigSchema :=
  [ -- Core
    { key := "datadir".toList, value_type := .string, sectionName := "Core".toList,
      description := "Directory to store data.".toList, default := "".toList },
    { key := "txindex".toList, value_type := .boolean, sectionName := "Core".toList,
      description := "Maintain a full transaction index.".toList, default := "0".toList },
    { key := "prune".toList, value_type := .integer, sectionName := "Core".toList,
      description := "Reduce storage requirements by enabling pruning (deleting) of old blocks. 0 = disable.".toList,
      default := "0".toList },
    { key := "blocksonly".toList, value_type := .boolean, sectionName := "Core".toList,
      description := "Reject transactions from network peers.".toList, default := "0".toList },
    { key := "dbcache".toList, value_type := .integer, sectionName := "Core".toList,
      description := "Database cache size in megabytes.".toList, default := "450".toList },
    { key := "maxmempool".toList, value_type := .integer, sectionName := "Core".toList,
      description := "Keep the transaction memory pool below <n> megabytes.".toList,
      default := "300".toList },
    { key := "pid".toList, value_type := .string, sectionName := "Core".toList,
      description := "Specify pid file. Relative paths will be prefixed by a net-specific datadir location.".toList,
      default := "bitcoind.pid".toList },
    -- Network
    { key := "testnet".toList, value_type := .boolean, sectionName := "Network".toList,
      description := "Run on the test network.".toList, default := "0".toList },
    { key := "regtest".toList, value_type := .boolean, sectionName := "Network".toList,
      description := "Run on the regression test network.".toList, default := "0".toList },
    { key := "signet".toList, value_type := .boolean, sectionName := "Network".toList,
      description := "Run on the signet network.".toList, default := "0".toList },
    { key := "listen".toList, value_type := .boolean, sectionName := "Network".toList,
      description := "Accept connections from outside.".toList, default := "1".toList },
    { key := "bind".toList, value_type := .string, sectionName := "Network".toList,
      description := "Bind to given address and always listen on it. Use [host]:port notation for IPv6.".toList,
      default := "0.0.0.0".toList },
    { key := "port".toList, value_type := .integer, sectionName := "Network".toList,
      description := "Listen for connections on <port>.".toList, default := "8333".toList },
    { key := "maxconnections".toList, value_type := .integer, sectionName := "Network".toList,
      description := "Maintain at most <n> connections to peers.".toList, default := "125".toList },
    { key := "proxy".toList, value_type := .string, sectionName := "Network".toList,
      description := "Connect through SOCKS5 proxy.".toList, default := "".toList },
    { key := "onion".toList, value_type := .string, sectionName := "Network".toList,
      description := "Use separate SOCKS5 proxy to reach peers via Tor onion services.".toList,
      default := "".toList },
    { key := "upnp".toList, value_type := .boolean, sectionName := "Network".toList,
      description := "Use UPnP to map the listening port.".toList, default := "0".toList },
    -- RPC
    { key := "server".toList, value_type := .boolean, sectionName := "RPC".toList,
      description := "Accept command line and JSON-RPC commands.".toList, default := "0".toList },
    { key := "rpcuser".toList, value_type := .string, sectionName := "RPC".toList,
      description := "Username for JSON-RPC connections.".toList, default := "".toList },
    { key := "rpcpassword".toList, value_type := .string, sectionName := "RPC".toList,
      description := "Password for JSON-RPC connections.".toList, default := "".toList },
    { key := "rpcauth".toList, value_type := .string, sectionName := "RPC".toList,
      description := "Username and hashed password for JSON-RPC connections.".toList,
      default := "".toList },
    { key := "rpcport".toList, value_type := .integer, sectionName := "RPC".toList,
      description := "Listen for JSON-RPC connections on <port>.".toList, default := "8332".toList },
    { key := "rpcbind".toList, value_type := .string, sectionName := "RPC".toList,
      description := "Bind to given address to listen for JSON-RPC connections.".toList,
      default := "".toList },
    { key := "rpcallowip".toList, value_type := .string, sectionName := "RPC".toList,
      description := "Allow JSON-RPC connections from specified source. Valid for <ip> are a single IP (e.g. 1.2.3.4), a network/netmask (e.g. 1.2.3.4/255.255.255.0) or a network/CIDR (e.g. 1.2.3.4/24).".toList,
      default := "".toList },
    { key := "rpcthreads".toList, value_type := .integer, sectionName := "RPC".toList,
      description := "Set the number of threads to service RPC calls.".toList, default := "4".toList },
    -- Wallet
    { key := "disablewallet".toList, value_type := .boolean, sectionName := "Wallet".toList,
      description := "Do not load the wallet and disable wallet RPC calls.".toList,
      default := "0".toList },
    { key := "fallbackfee".toList, value_type := .string, sectionName := "Wallet".toList,
      description := "A fee rate (in BTC/kvB) that will be used when fee estimation has insufficient data.".toList,
      default := "0.00021".toList },
    { key := "discardfee".toList, value_type := .string, sectionName := "Wallet".toList,
      description := "The fee rate (in BTC/kvB) that indicates your tolerance for discarding change by adding it to the fee.".toList,
      default := "0.0001".toList },
    { key := "mintxfee".toList, value_type := .string, sectionName := "Wallet".toList,
      description := "Fees (in BTC/kvB) smaller than this are considered zero fee for transaction creation.".toList,
      default := "0.00001".toList },
    { key := "paytxfee".toList, value_type := .string, sectionName := "Wallet".toList,
      description := "Fee (in BTC/kvB) to add to transactions you send.".toList,
      default := "0.00".toList },
    -- Debug
    { key := "debug".toList, value_type := .string, sectionName := "Debug".toList,
      description := "Output debugging information (default: 0, supplying <category> is optional).".toList,
      default := "".toList },
    { key := "logips".toList, value_type := .boolean, sectionName := "Debug".toList,
      description := "Include IP addresses in debug output.".toList, default := "0".toList },
    { key := "shrinkdebugfile".toList, value_type := .boolean, sectionName := "Debug".toList,
      description := "Shrink debug.log file on client startup (default: 1 when no -debug).".toList,
      default := "1".toList },
    -- Mining
    { key := "blockmaxweight".toList, value_type := .integer, sectionName := "Mining".toList,
      description := "Set maximum BIP141 block weight (default: 3996000).".toList,
      default := "3996000".toList },
    { key := "minrelaytxfee".toList, value_type := .string, sectionName := "Mining".toList,
      description := "Fees (in BTC/kvB) smaller than this are considered zero fee for relaying, mining and transaction creation.".toList,
      default := "0.00001".toList },
    -- ZMQ
    { key := "zmqpubhashblock".toList, value_type := .string, sectionName := "ZMQ".toList,
      description := "Enable publish hash block in <address>.".toList,
      default := "tcp://127.0.0.1:28332".toList },
    { key := "zmqpubhashtx".toList, value_type := .string, sectionName := "ZMQ".toList,
      description := "Enable publish hash transaction in <address>.".toList,
      default := "tcp://127.0.0.1:28332".toList },
    { key := "zmqpubrawblock".toList, value_type := .string, sectionName := "ZMQ".toList,
      description := "Enable publish raw block in <address>.".toList,
      default := "tcp://127.0.0.1:28332".toList },
    { key := "zmqpubrawtx".toList, value_type := .string, sectionName := "ZMQ".toList,
      description := "Enable publish raw transaction in <address>.".toList,
      default := "tcp://127.0.0.1:28332".toList } ]

-- ### Config parser (src/config.rs, parse_config)

/-- Result of consulting the filesystem for a configuration file. -/
inductive FileView
  | notFound
  | readError
  | content (lines : List Str)
  deriving DecidableEq

/-- Modelled from the spec: src's `parse_config` delegates file reading and
INI parsing to the external `config` crate, which is not part of this
repository; one line of input is handled per spec item 2 of the parser
algorithm. Skip blank lines and lines whose first non-whitespace character
is `#`; split the rest on the first `=` and trim both sides; a line with no
`=` is a boolean-style flag with value `1`. -/
def parseLine (line : Str) : Option (Str × Str) :=
  let t := trimStr line
  if t = [] then none
  else if t.head? = some '#' then none
  else
    match splitFirstEq t with
    | some (k, v) => some (trimStr k, trimStr v)
    | none => some (t, "1".toList)

/-- The `(key, value)` pairs parsed from the lines of a file, in order. -/
def parsePairs (lines : List Str) : List (Str × Str) :=
  lines.filterMap parseLine

/-- Schema lookup by key (the schema table is keyed by `key`). -/
def findSchema (k : Str) : Option ConfigSchema :=
  get_default_schema.find? (fun s => decide (s.key = k))

/-- Modelled from the spec: merge of parsed pairs with the schema table
(spec items 3 and 4 of the parser algorithm; src's `parse_config` performs
this merge through lookups on the external `config` crate). Every parsed
pair becomes an enabled entry, with its schema when the key is known; every
schema row whose key was not found becomes a disabled entry holding the
schema default. -/
def contentEntries (lines : List Str) : List ConfigEntry :=
  let pairs := parsePairs lines
  let foundKeys := pairs.map Prod.fst
  pairs.map (fun kv => { key := kv.1, value := kv.2, schema := findSchema kv.1, enabled := true })
    ++ (get_default_schema.filter (fun s => decide (s.key ∉ foundKeys))).map
        (fun s => { key := s.key, value := s.default, schema := some s, enabled := false })

/-- The entry list `parse_config` produces for each filesystem outcome. A
missing path adds no source, so the merge runs over an empty configuration;
a read or parse failure of an existing path takes the catch branch of
src/config.rs lines 336-349, which emits the disabled schema defaults
directly; readable content is merged with the schema. -/
def parseEntries : FileView → List ConfigEntry
  | .notFound => contentEntries []
  | .readError =>
      get_default_schema.map fun s =>
        { key := s.key, value := s.default, schema := some s, enabled := false }
  | .content lines => contentEntries lines

/-- Models `parse_config` (src/config.rs) with the file reading and INI
parsing of the external `config` crate abstracted into a `FileView`; the
content branch follows spec item 2 of the parser algorithm. The function
never returns an error: every builder failure — including an I/O failure
reading an existing path — is caught at src/config.rs lines 336-349 and
answered with `Ok` holding one disabled default entry per schema row. -/
def parse_config (fv : FileView) : Except Unit (List ConfigEntry) :=
  .ok (parseEntries fv)

-- ### P2pool parser (src/components/p2pool_parser.rs)

namespace P2pool

structure ConfigField where
  key : Str
  value : Str
  deriving DecidableEq, Repr

structure ConfigSection where
  title : Str
  fields : List ConfigField
  deriving DecidableEq, Repr

end P2pool

/-- The p2pool-specific bucket classifier for a key (the rule chain inlined
in `parse_p2pool_config`). -/
def p2poolSection (key : Str) : Str :=
  if strContains "user".toList key || strContains "pass".toList key
      || strContains "auth".toList key then
    "Authentication".toList
  else if "bitcoind".toList.isPrefixOf key then
    "Bitcoin Node".toList
  else if strContains "port".toList key || strContains "address".toList key
      || strContains "listen".toList key then
    "Network".toList
  else if strContains "payout".toList key || strContains "wallet".toList key then
    "Payouts".toList
  else
    "General Settings".toList

/-- Processing of one line of a p2pool config file: skip blank lines and
comments; on `key=value` trim both sides and push the field into its bucket;
a line with no `=` matches no branch and is skipped. -/
def p2poolStep (m : List (Str × List P2pool.ConfigField)) (line : Str) :
    List (Str × List P2pool.ConfigField) :=
  let trimmed := trimStr line
  if trimmed = [] then m
  else if trimmed.head? = some '#' then m
  else
    match splitFirstEq trimmed with
    | some (k0, v0) =>
        let k := trimStr k0
        let v := trimStr v0
        bucketAdd m (p2poolSection k) { key := k, value := v }
    | none => m

/-- Comparison of p2pool sections by title, as used by the final sort. -/
def cmpP2poolTitle (a b : P2pool.ConfigSection) : Ordering := cmpStr a.title b.title

/-- Models `parse_p2pool_config` (src/components/p2pool_parser.rs) on the
lines of an already-read file: bucket every `key=value` line by the p2pool
rule chain, then sort the buckets alphabetically by title. Bucket titles are
unique, so the sorted output does not depend on hash-map iteration order. -/
def parse_p2pool_config (lines : List Str) : List P2pool.ConfigSection :=
  sortCmp cmpP2poolTitle
    ((lines.foldl p2poolStep []).map (fun p => { title := p.1, fields := p.2 }))

-- ### Editor model (src/components/config_editor.rs)

structure ConfigEditor where
  sections : List P2pool.ConfigSection
  selected_tab : Nat
  field_state : Option Nat
  deriving DecidableEq

/-- The item count of the currently selected tab (Rust indexes
`self.sections[self.selected_tab]`, which panics out of range; the theorems
below keep the index in range). -/
def fieldCount (e : ConfigEditor) : Nat :=
  (e.sections.getD e.selected_tab { title := [], fields := [] }).fields.length

/-- ConfigEditor::next_field. -/
def next_field (e : ConfigEditor) : ConfigEditor :=
  if e.sections.isEmpty then e
  else
    let count := fieldCount e
    if count = 0 then e
    else
      let i := match e.field_state with
        | some i => (i + 1) % count
        | none => 0
      { e with field_state := some i }

/-- ConfigEditor::previous_field. -/
def previous_field (e : ConfigEditor) : ConfigEditor :=
  if e.sections.isEmpty then e
  else
    let count := fieldCount e
    if count = 0 then e
    else
      let i := match e.field_state with
        | some i => if i = 0 then count - 1 else i - 1
        | none => 0
      { e with field_state := some i }

-- ### File explorer model and session state machine (src/app.rs)

/-- Filesystem oracle: the synchronous filesystem calls the session makes,
made explicit as inputs. -/
structure Fs where
  parentOf : Str → Option Str
  readDir : Str → Option (List Str)
  isDir : Str → Bool
  fileView : Str → FileView
  writeOk : Str → Bool

inductive CurrentScreen
  | home
  | bitcoinConfig
  | fileExplorer
  | editing
  | editingValue
  deriving DecidableEq, Repr

structure FileExplorerState where
  current_dir : Str
  files : List Str
  list_state : Option Nat
  deriving DecidableEq

/-- Comparator used by `refresh_files`: directories first, then by
`file_name` (src/app.rs lines 70-80). -/
def cmpFiles (fs : Fs) (a b : Str) : Ordering :=
  if fs.isDir a && !fs.isDir b then .lt
  else if !fs.isDir a && fs.isDir b then .gt
  else cmpOptStr (fileName a) (fileName b)

/-- The selection fix-up at the end of `refresh_files` (src/app.rs lines
82-91): clear the selection on an empty list, keep `selected` (defaulting to
0) when still in range, otherwise clamp to the last index. -/
def fixSelection (files : List Str) (st : Option Nat) : Option Nat :=
  if files.isEmpty then none
  else
    let selected := st.getD 0
    if files.length ≤ selected then some (files.length - 1) else some selected

/-- FileExplorerState::refresh_files: rebuild `files` from the directory
listing (parent marker first when a parent exists, then the entries, sorted
directories-first), then fix up the selection. -/
def refresh_files (fs : Fs) (s : FileExplorerState) : FileExplorerState :=
  let base : List Str :=
    match fs.parentOf s.current_dir with
    | some _ => [pathJoin s.current_dir "..".toList]
    | none => []
  let entries := (fs.readDir s.current_dir).getD []
  let files := sortCmp (cmpFiles fs) (base ++ entries)
  { s with files := files, list_state := fixSelection files s.list_state }

/-- FileExplorerState::select_next. -/
def select_next (s : FileExplorerState) : FileExplorerState :=
  if s.files.isEmpty then s
  else
    let i := match s.list_state with
      | some i => if s.files.length - 1 ≤ i then 0 else i + 1
      | none => 0
    { s with list_state := some i }

/-- FileExplorerState::select_previous. -/
def select_previous (s : FileExplorerState) : FileExplorerState :=
  if s.files.isEmpty then s
  else
    let i := match s.list_state with
      | some i => if i = 0 then s.files.length - 1 else i - 1
      | none => 0
    { s with list_state := some i }

structure ConfigSection where
  name : Str
  items : List ConfigEntry
  deriving DecidableEq

/-- Session state (src/app.rs, struct App). The renderer-owned
`interactive_rects` and the pointer handler are not modelled; no property
below concerns them. -/
structure App where
  current_screen : CurrentScreen
  sidebar_index : Nat
  config_flow_return_screen : CurrentScreen
  sections : List ConfigSection
  selected_section_index : Nat
  selected_item_index : Nat
  editing_value : Str
  config_list_state : Option Nat
  config_file_path : Option Str
  notification : Option Str
  file_explorer : FileExplorerState
  running : Bool
  deriving DecidableEq

/-- Comparator used when sorting sections by name. -/
def cmpSectionName (a b : ConfigSection) : Ordering := cmpStr a.name b.name

/-- The grouping step of App::load_config: bucket the entries by schema
section name (unknown keys go to "Custom") and sort the buckets by name.
Bucket names are unique, so sorting makes the result independent of
hash-map iteration order. -/
def groupSections (entries : List ConfigEntry) : List ConfigSection :=
  let m := entries.foldl
    (fun m e =>
      bucketAdd m
        (match e.schema with
         | some sch => sch.sectionName
         | none => "Custom".toList) e)
    []
  sortCmp cmpSectionName (m.map fun p => ConfigSection.mk p.1 p.2)

/-- App::load_config: parse the file, group the entries into sections, and
reset the selection cursors. The error arm mirrors the `?` propagation in
src/app.rs, though `parse_config` never takes it. -/
def load_config (fs : Fs) (app : App) (path : Str) : Except Unit App :=
  match parse_config (fs.fileView path) with
  | .error e => .error e
  | .ok entries =>
      .ok { app with
              sections := groupSections entries,
              selected_section_index := 0,
              selected_item_index := 0,
              config_list_state := some 0 }

/-- One `key=value` output line of the serializer, without its newline. -/
def kvLine (e : ConfigEntry) : Str := e.key ++ '=' :: e.value

/-- The serializer's per-entry emission: enabled entries produce
`key=value` plus a newline, disabled entries produce nothing. -/
def enabledLines : List ConfigEntry → Str
  | [] => []
  | e :: rest => (if e.enabled then kvLine e ++ ['\n'] else []) ++ enabledLines rest

/-- The serializer's output for one section (src/app.rs, App::save_config
body of the loop): a comment header, the enabled `key=value` lines, and a
blank line — or nothing when no entry is enabled. -/
def sectionContent (sec : ConfigSection) : Str :=
  if sec.items.any (fun i => i.enabled) then
    ("# Section: ".toList ++ sec.name ++ ['\n']) ++ enabledLines sec.items ++ ['\n']
  else []

/-- The full serialized file content (App::save_config builds this string
before writing it). -/
def save_content : List ConfigSection → Str
  | [] => []
  | sec :: rest => sectionContent sec ++ save_content rest

/-- App::save_config: serialize and write when a path is set; the success
notification is set only when the write succeeds (a failed write propagates
as an error before the notification line runs). -/
def save_config (fs : Fs) (app : App) : App :=
  match app.config_file_path with
  | none => app
  | some path =>
      if fs.writeOk path then
        { app with notification := some "Configuration saved successfully.".toList }
      else app

inductive KeyCode
  | enter
  | esc
  | up
  | down
  | left
  | right
  | tab
  | backTab
  | backspace
  | char (c : Char)
  deriving DecidableEq

structure KeyEvent where
  code : KeyCode
  ctrl : Bool
  deriving DecidableEq

/-- Test for the synthetic parent entry, modelling
`selected.file_name() == Some("..") || selected.ends_with("..")` on paths
(`ends_with` compares final path components). -/
def isParentEntry (p : Str) : Bool :=
  decide (p = "..".toList) || decide ("/..".toList <:+ p)

/-- Replace the entry at position `j` of section `i`, leaving everything
else unchanged (models the nested `get_mut` accesses). -/
def setEntry (sections : List ConfigSection) (i j : Nat) (e : ConfigEntry) :
    List ConfigSection :=
  match sections.get? i with
  | none => sections
  | some sec => sections.set i { sec with items := sec.items.set j e }

/-- The FileExplorer Enter branch of App::handle_key_event (src/app.rs lines
350-375): parent entry and directories navigate in place; a file first
records `config_file_path`, then attempts the load, and transitions to
Editing only on success. -/
def explorerEnter (fs : Fs) (app : App) : App :=
  match app.file_explorer.list_state with
  | none => app
  | some idx =>
      match app.file_explorer.files.get? idx with
      | none => app
      | some selected =>
          if isParentEntry selected then
            match fs.parentOf app.file_explorer.current_dir with
            | some parent =>
                { app with
                    file_explorer :=
                      refresh_files fs
                        { app.file_explorer with
                            current_dir := parent, list_state := some 0 } }
            | none => app
          else if fs.isDir selected then
            { app with
                file_explorer :=
                  refresh_files fs
                    { app.file_explorer with
                        current_dir := selected, list_state := some 0 } }
          else
            let app1 := { app with config_file_path := some selected }
            match load_config fs app1 selected with
            | .error _ => app1
            | .ok app2 => { app2 with current_screen := .editing }

/-- App::handle_key_event (src/app.rs lines 320-497). -/
def handle_key_event (fs : Fs) (app0 : App) (key : KeyEvent) : App :=
  let is_ctrl_s := key.ctrl && decide (key.code = KeyCode.char 's')
  let app := if is_ctrl_s then app0 else { app0 with notification := none }
  match app.current_screen with
  | .home =>
      match key.code with
      | .char 'q' => { app with running := false }
      | .esc => { app with running := false }
      | _ => app
  | .bitcoinConfig =>
      match key.code with
      | .char 'q' => app
      | .char '?' => app
      | .enter =>
          { app with
              config_flow_return_screen := app.current_screen,
              current_screen := .fileExplorer,
              file_explorer := refresh_files fs app.file_explorer }
      | _ => app
  | .fileExplorer =>
      match key.code with
      | .esc => { app with current_screen := app.config_flow_return_screen }
      | .up => { app with file_explorer := select_previous app.file_explorer }
      | .down => { app with file_explorer := select_next app.file_explorer }
      | .enter => explorerEnter fs app
      | _ => app
  | .editing =>
      if is_ctrl_s then save_config fs app
      else
        match key.code with
        | .esc => { app with current_screen := app.config_flow_return_screen }
        | .right =>
            if app.sections.isEmpty then app
            else if app.selected_section_index < app.sections.length - 1 then
              { app with
                  selected_section_index := app.selected_section_index + 1,
                  selected_item_index := 0, config_list_state := some 0 }
            else
              { app with
                  selected_section_index := 0,
                  selected_item_index := 0, config_list_state := some 0 }
        | .tab =>
            if app.sections.isEmpty then app
            else if app.selected_section_index < app.sections.length - 1 then
              { app with
                  selected_section_index := app.selected_section_index + 1,
                  selected_item_index := 0, config_list_state := some 0 }
            else
              { app with
                  selected_section_index := 0,
                  selected_item_index := 0, config_list_state := some 0 }
        | .left =>
            if app.sections.isEmpty then app
            else if 0 < app.selected_section_index then
              { app with
                  selected_section_index := app.selected_section_index - 1,
                  selected_item_index := 0, config_list_state := some 0 }
            else
              { app with
                  selected_section_index := app.sections.length - 1,
                  selected_item_index := 0, config_list_state := some 0 }
        | .backTab =>
            if app.sections.isEmpty then app
            else if 0 < app.selected_section_index then
              { app with
                  selected_section_index := app.selected_section_index - 1,
                  selected_item_index := 0, config_list_state := some 0 }
            else
              { app with
                  selected_section_index := app.sections.length - 1,
                  selected_item_index := 0, config_list_state := some 0 }
        | .down =>
            match app.sections.get? app.selected_section_index with
            | some sec =>
                if !sec.items.isEmpty
                    && app.selected_item_index < sec.items.length - 1 then
                  { app with
                      selected_item_index := app.selected_item_index + 1,
                      config_list_state := some (app.selected_item_index + 1) }
                else app
            | none => app
        | .up =>
            if 0 < app.selected_item_index then
              { app with
                  selected_item_index := app.selected_item_index - 1,
                  config_list_state := some (app.selected_item_index - 1) }
            else app
        | .enter =>
            match app.sections.get? app.selected_section_index with
            | none => app
            | some sec =>
                match sec.items.get? app.selected_item_index with
                | none => app
                | some entry =>
                    let is_bool := match entry.schema with
                      | some sch => decide (sch.value_type = ConfigType.boolean)
                      | none => false
                    if is_bool then
                      { app with
                          sections :=
                            setEntry app.sections app.selected_section_index
                              app.selected_item_index
                              { entry with
                                  value :=
                                    if entry.value = "1".toList then "0".toList
                                    else "1".toList,
                                  enabled := true } }
                    else
                      { app with
                          editing_value := entry.value,
                          current_screen := .editingValue }
        | .char ' ' =>
            match app.sections.get? app.selected_section_index with
            | none => app
            | some sec =>
                match sec.items.get? app.selected_item_index with
                | none => app
                | some entry =>
                    { app with
                        sections :=
                          setEntry app.sections app.selected_section_index
                            app.selected_item_index
                            { entry with enabled := !entry.enabled } }
        | _ => app
  | .editingValue =>
      if is_ctrl_s then
        let app1 :=
          match app.sections.get? app.selected_section_index with
          | none => app
          | some sec =>
              match sec.items.get? app.selected_item_index with
              | none => app
              | some entry =>
                  { app with
                      sections :=
                        setEntry app.sections app.selected_section_index
                          app.selected_item_index
                          { entry with value := app.editing_value, enabled := true } }
        { save_config fs app1 with current_screen := .editing }
      else
        match key.code with
        | .esc => { app with current_screen := .editing }
        | .enter =>
            let app1 :=
              match app.sections.get? app.selected_section_index with
              | none => app
              | some sec =>
                  match sec.items.get? app.selected_item_index with
                  | none => app
                  | some entry =>
                      { app with
                          sections :=
                            setEntry app.sections app.selected_section_index
                              app.selected_item_index
                              { entry with value := app.editing_value, enabled := true } }
            { app1 with current_screen := .editing }
        | .backspace => { app with editing_value := app.editing_value.dropLast }
        | .char c => { app with editing_value := app.editing_value ++ [c] }
        | _ => app

-- ### Serializer shape, read back from the claim wording (for refinement)

/-- The serializer's output for one section, described line by line as the
spec states it: header, one `key=value` line per enabled entry, blank line;
nothing when no entry is enabled. -/
def sectionLinesSpec (sec : ConfigSection) : List Str :=
  if sec.items.any (fun i => i.enabled) then
    ("# Section: ".toList ++ sec.name) ::
      (sec.items.filter (fun i => i.enabled)).map kvLine ++ [[]]
  else []

/-- Line-by-line description of the whole serialized file. -/
def saveLinesSpec : List ConfigSection → List Str
  | [] => []
  | sec :: rest => sectionLinesSpec sec ++ saveLinesSpec rest

/-- The enabled `(key, value)` pairs of a section list, in order. -/
def enabledPairsSections : List ConfigSection → List (Str × Str)
  | [] => []
  | sec :: rest =>
      (sec.items.filter (fun e => e.enabled)).map (fun e => (e.key, e.value))
        ++ enabledPairsSections rest

/-- The enabled `(key, value)` pairs of an entry list. -/
def entryPairs (entries : List ConfigEntry) : List (Str × Str) :=
  (entries.filter (fun e => e.enabled)).map (fun e => (e.key, e.value))

/-- Re-parse of a serialized session: split the saved content into lines and
run the parser's merge on them. -/
def reparse (sections : List ConfigSection) : List ConfigEntry :=
  contentEntries (splitNl (save_content sections))

/-- An enabled entry survives one serialize/parse cycle unchanged exactly
when its text cannot collide with the line format: key and value are
trim-stable and newline-free, the key contains no `=` and does not start a
comment. -/
def entrySafe (e : ConfigEntry) : Prop :=
  e.enabled = true →
    trimStr e.key = e.key ∧ trimStr e.value = e.value ∧ ('=' : Char) ∉ e.key ∧
      ('\n' : Char) ∉ e.key ∧ ('\n' : Char) ∉ e.value ∧ e.key.head? ≠ some '#'

instance (e : ConfigEntry) : Decidable (entrySafe e) := by
  unfold entrySafe; infer_instance

/-- Sections whose names and enabled entries are representable in the
line-oriented file format. -/
def LineSafe (sections : List ConfigSection) : Prop :=
  ∀ sec ∈ sections, ('\n' : Char) ∉ sec.name ∧ ∀ e ∈ sec.items, entrySafe e

instance (sections : List ConfigSection) : Decidable (LineSafe sections) := by
  unfold LineSafe; infer_instance

-- ### Helper lemmas on the string utilities

theorem joinNl_append (a b : List Str) : joinNl (a ++ b) = joinNl a ++ joinNl b := by
  induction a with
  | nil => simp [joinNl]
  | cons l ls ih => simp [joinNl, ih]

theorem splitNl_append (l r : Str) (h : ('\n' : Char) ∉ l) :
    splitNl (l ++ '\n' :: r) = l :: splitNl r := by
  induction l with
  | nil => simp [splitNl, splitOnChar]
  | cons c t ih =>
      have hc : ¬(c = '\n') := fun hc => h (hc ▸ List.mem_cons_self c t)
      have ht := ih (fun hm => h (List.mem_cons_of_mem c hm))
      simp only [splitNl, List.cons_append, splitOnChar, if_neg hc, List.append_eq] at ht ⊢
      rw [ht]

theorem splitNl_joinNl (ls : List Str) (h : ∀ l ∈ ls, ('\n' : Char) ∉ l) :
    splitNl (joinNl ls) = ls ++ [[]] := by
  induction ls with
  | nil => simp [joinNl, splitNl, splitOnChar]
  | cons l ls ih =>
      rw [joinNl, splitNl_append l _ (h l (List.mem_cons_self l ls)),
        ih (fun x hx => h x (List.mem_cons_of_mem l hx))]
      rfl

theorem dropWhile_eq_self_head {p : Char → Bool} {c : Char} {t : Str}
    (h : (c :: t).dropWhile p = c :: t) : p c = false := by
  by_contra hpc
  have hpc' : p c = true := by
    cases hb : p c with
    | false => exact absurd hb hpc
    | true => rfl
  rw [List.dropWhile_cons, if_pos hpc'] at h
  have := (List.dropWhile_suffix (l := t) p).length_le
  rw [h] at this
  simp at this

theorem trimStr_parts {l : Str} (h : trimStr l = l) :
    l.dropWhile wsChar = l ∧ l.reverse.dropWhile wsChar = l.reverse := by
  have h1 : (l.dropWhile wsChar) <:+ l := List.dropWhile_suffix _
  have hlen2 :
      (((l.dropWhile wsChar).reverse.dropWhile wsChar)).length ≤
        (l.dropWhile wsChar).length := by
    have := (List.dropWhile_suffix (l := (l.dropWhile wsChar).reverse) wsChar).length_le
    simpa using this
  have hlenh : (((l.dropWhile wsChar).reverse.dropWhile wsChar)).length = l.length := by
    have := congrArg List.length h
    simpa [trimStr] using this
  have heq1 : l.dropWhile wsChar = l :=
    h1.eq_of_length (Nat.le_antisymm h1.length_le (by omega))
  refine ⟨heq1, ?_⟩
  have h2 : (l.reverse.dropWhile wsChar).reverse = l := by
    rw [trimStr, heq1] at h; exact h
  have := congrArg List.reverse h2
  simpa using this

theorem dropWhile_append_stable {p : Char → Bool} {l r : Str}
    (hl : l.dropWhile p = l) (hr : r.dropWhile p = r) :
    (l ++ r).dropWhile p = l ++ r := by
  cases l with
  | nil => simpa using hr
  | cons c t =>
      have hc := dropWhile_eq_self_head hl
      simp [List.dropWhile_cons, hc]

theorem wsChar_eq_false : wsChar '=' = false := by decide

theorem wsChar_hash_false : wsChar '#' = false := by decide

theorem trimStr_kv {k v : Str} (hk : trimStr k = k) (hv : trimStr v = v) :
    trimStr (k ++ '=' :: v) = k ++ '=' :: v := by
  obtain ⟨hk1, _⟩ := trimStr_parts hk
  obtain ⟨_, hv2⟩ := trimStr_parts hv
  have front : (k ++ '=' :: v).dropWhile wsChar = k ++ '=' :: v :=
    dropWhile_append_stable hk1 (by simp [List.dropWhile_cons, wsChar_eq_false])
  have hrev : (k ++ '=' :: v).reverse = v.reverse ++ '=' :: k.reverse := by
    simp
  have back : (k ++ '=' :: v).reverse.dropWhile wsChar = (k ++ '=' :: v).reverse := by
    rw [hrev]
    exact dropWhile_append_stable hv2 (by simp [List.dropWhile_cons, wsChar_eq_false])
  rw [trimStr, front, back]
  simp

theorem splitFirstEq_no_eq {l : Str} (h : ('=' : Char) ∉ l) : splitFirstEq l = none := by
  induction l with
  | nil => rfl
  | cons c t ih =>
      have hc : ¬(c = '=') := fun hc => h (hc ▸ List.mem_cons_self c t)
      simp [splitFirstEq, hc, ih (fun hm => h (List.mem_cons_of_mem c hm))]

theorem splitFirstEq_append {k v : Str} (h : ('=' : Char) ∉ k) :
    splitFirstEq (k ++ '=' :: v) = some (k, v) := by
  induction k with
  | nil => simp [splitFirstEq]
  | cons c t ih =>
      have hc : ¬(c = '=') := fun hc => h (hc ▸ List.mem_cons_self c t)
      simp [splitFirstEq, hc, ih (fun hm => h (List.mem_cons_of_mem c hm))]

theorem parseLine_kv {e : ConfigEntry} (hk : trimStr e.key = e.key)
    (hv : trimStr e.value = e.value) (hkeq : ('=' : Char) ∉ e.key)
    (hhash : e.key.head? ≠ some '#') :
    parseLine (kvLine e) = some (e.key, e.value) := by
  have hne : e.key ++ '=' :: e.value ≠ [] := by cases e.key <;> simp
  have hh : (e.key ++ '=' :: e.value).head? ≠ some '#' := by
    cases hk' : e.key with
    | nil => simp
    | cons c t =>
        rw [hk'] at hhash
        simpa using hhash
  simp only [parseLine, kvLine, trimStr_kv hk hv, if_neg hne, if_neg hh,
    splitFirstEq_append hkeq, hk, hv]

theorem trim_cons_hash (X : Str) :
    trimStr ('#' :: X) = '#' :: (X.reverse.dropWhile wsChar).reverse := by
  rw [trimStr]
  have h1 : ('#' :: X).dropWhile wsChar = '#' :: X := by
    simp [List.dropWhile_cons, wsChar_hash_false]
  rw [h1, List.reverse_cons, List.dropWhile_append]
  by_cases hemp : (X.reverse.dropWhile wsChar).isEmpty
  · rw [if_pos hemp]
    have : X.reverse.dropWhile wsChar = [] := by
      cases hx : X.reverse.dropWhile wsChar with
      | nil => rfl
      | cons a b => rw [hx] at hemp; simp [List.isEmpty] at hemp
    simp [this, List.dropWhile_cons, wsChar_hash_false]
  · rw [if_neg hemp]
    simp

theorem parseLine_header (name : Str) :
    parseLine ("# Section: ".toList ++ name) = none := by
  have hsh : "# Section: ".toList ++ name = '#' :: (" Section: ".toList ++ name) := rfl
  rw [hsh]
  have htr := trim_cons_hash (" Section: ".toList ++ name)
  simp only [parseLine, htr]
  simp

theorem parseLine_nil : parseLine [] = none := rfl

-- ### The serializer emits exactly the spec-shaped lines

theorem enabledLines_eq (items : List ConfigEntry) :
    enabledLines items = joinNl ((items.filter (fun i => i.enabled)).map kvLine) := by
  induction items with
  | nil => rfl
  | cons e t ih =>
      by_cases he : e.enabled
      · simp [enabledLines, List.filter_cons, he, joinNl, ih]
      · simp [enabledLines, List.filter_cons, he, ih]

theorem joinNl_cons (l : Str) (ls : List Str) : joinNl (l :: ls) = l ++ '\n' :: joinNl ls :=
  rfl

theorem sectionContent_eq (sec : ConfigSection) :
    sectionContent sec = joinNl (sectionLinesSpec sec) := by
  by_cases h : sec.items.any (fun i => i.enabled)
  · simp only [sectionContent, sectionLinesSpec, if_pos h, enabledLines_eq]
    rw [joinNl_append, joinNl_cons]
    simp [joinNl]
  · simp [sectionContent, sectionLinesSpec, h, joinNl]

theorem save_content_eq_lines (sections : List ConfigSection) :
    save_content sections = joinNl (saveLinesSpec sections) := by
  induction sections with
  | nil => rfl
  | cons sec rest ih =>
      rw [save_content, saveLinesSpec, joinNl_append, sectionContent_eq, ih]

-- ### Safe sections round-trip through serialize and parse

theorem noNl_saveLinesSpec {sections : List ConfigSection} (h : LineSafe sections) :
    ∀ l ∈ saveLinesSpec sections, ('\n' : Char) ∉ l := by
  induction sections with
  | nil => intro l hl; cases hl
  | cons sec rest ih =>
      intro l hl
      rw [saveLinesSpec] at hl
      rcases List.mem_append.mp hl with hl | hl
      · obtain ⟨hname, hitems⟩ := h sec (List.mem_cons_self sec rest)
        rw [sectionLinesSpec] at hl
        by_cases hany : sec.items.any (fun i => i.enabled)
        · rw [if_pos hany] at hl
          rcases List.mem_cons.mp hl with rfl | hl
          · intro hmem
            rcases List.mem_append.mp hmem with hmem | hmem
            · exact absurd hmem (by decide)
            · exact hname hmem
          · rcases List.mem_append.mp hl with hl | hl
            · obtain ⟨e, he, rfl⟩ := List.mem_map.mp hl
              have hee := List.mem_filter.mp he
              obtain ⟨_, _, _, hnk, hnv, _⟩ := hitems e hee.1 (by simpa using hee.2)
              intro hmem
              rw [kvLine] at hmem
              rcases List.mem_append.mp hmem with hmem | hmem
              · exact hnk hmem
              · rcases List.mem_cons.mp hmem with hmem | hmem
                · exact absurd hmem (by decide)
                · exact hnv hmem
            · rcases List.mem_singleton.mp hl with rfl
              simp
        · rw [if_neg hany] at hl; cases hl
      · exact ih (fun s hs => h s (List.mem_cons_of_mem sec hs)) l hl

theorem filterMap_parseLine_kvmap (fil : List ConfigEntry)
    (hall : ∀ e ∈ fil, parseLine (kvLine e) = some (e.key, e.value)) :
    (fil.map kvLine).filterMap parseLine = fil.map (fun e => (e.key, e.value)) := by
  induction fil with
  | nil => rfl
  | cons e t ih =>
      rw [List.map_cons, List.filterMap_cons_some (hall e (List.mem_cons_self e t)),
        List.map_cons, ih (fun x hx => hall x (List.mem_cons_of_mem e hx))]

theorem filterMap_parseLine_saveLines (sections : List ConfigSection)
    (h : LineSafe sections) :
    (saveLinesSpec sections).filterMap parseLine = enabledPairsSections sections := by
  induction sections with
  | nil => rfl
  | cons sec rest ih =>
      rw [saveLinesSpec, List.filterMap_append, enabledPairsSections,
        ih (fun s hs => h s (List.mem_cons_of_mem sec hs))]
      obtain ⟨hname, hitems⟩ := h sec (List.mem_cons_self sec rest)
      congr 1
      rw [sectionLinesSpec]
      by_cases hany : sec.items.any (fun i => i.enabled)
      · rw [if_pos hany, List.filterMap_append,
          List.filterMap_cons_none (parseLine_header sec.name)]
        rw [filterMap_parseLine_kvmap _ ?_]
        · simp [List.filterMap, parseLine_nil]
        · intro e he
          have hee := List.mem_filter.mp he
          obtain ⟨h1, h2, h3, _, _, h6⟩ := hitems e hee.1 (by simpa using hee.2)
          exact parseLine_kv h1 h2 h3 h6
      · rw [if_neg hany]
        have : sec.items.filter (fun e => e.enabled) = [] := by
          rw [List.filter_eq_nil_iff]
          intro a ha hpa
          exact hany (List.any_eq_true.mpr ⟨a, ha, hpa⟩)
        simp [this]

theorem entryPairs_contentEntries (lines : List Str) :
    entryPairs (contentEntries lines) = parsePairs lines := by
  unfold entryPairs contentEntries
  rw [List.filter_append]
  have h1 : ((parsePairs lines).map
      (fun kv => ({ key := kv.1, value := kv.2, schema := findSchema kv.1,
                    enabled := true } : ConfigEntry))).filter (fun e => e.enabled)
      = (parsePairs lines).map
          (fun kv => ({ key := kv.1, value := kv.2, schema := findSchema kv.1,
                        enabled := true } : ConfigEntry)) := by
    rw [List.filter_eq_self]
    intro a ha
    obtain ⟨kv, _, rfl⟩ := List.mem_map.mp ha
    rfl
  have h2 : ((get_default_schema.filter
        (fun s => decide (s.key ∉ (parsePairs lines).map Prod.fst))).map
      (fun s => ({ key := s.key, value := s.default, schema := some s,
                   enabled := false } : ConfigEntry))).filter (fun e => e.enabled) = [] := by
    rw [List.filter_eq_nil_iff]
    intro a ha
    obtain ⟨s, _, rfl⟩ := List.mem_map.mp ha
    simp
  rw [h1, h2, List.append_nil, List.map_map]
  have : ((fun e : ConfigEntry => (e.key, e.value)) ∘
      (fun kv : Str × Str => ({ key := kv.1, value := kv.2, schema := findSchema kv.1,
                                enabled := true } : ConfigEntry))) = id := by
    funext kv; rfl
  rw [this, List.map_id]

-- ### Claim C3

/-- C3: for a path that does not exist, `parse_config` returns `Ok` (a
missing file is not an error) with exactly one entry per schema row, each
disabled and holding that row's default value. -/
theorem c3_missing_file_defaults :
    parse_config FileView.notFound =
      .ok (get_default_schema.map fun s =>
        { key := s.key, value := s.default, schema := some s, enabled := false }) := by
  rfl

-- ### Claim C6

/-- C6: the serializer emits, for each section with at least one enabled
entry, a comment header naming the section, one `key=value` line per enabled
entry, then a blank line; disabled entries are omitted and sections with no
enabled entry contribute nothing (`saveLinesSpec` is that line-by-line
description, read back from the spec wording). -/
theorem c6_serializer_lines (sections : List ConfigSection) :
    save_content sections = joinNl (saveLinesSpec sections) :=
  save_content_eq_lines sections

-- ### Claim C1

def c1Sections : List ConfigSection :=
  [{ name := "S".toList,
     items := [{ key := "k".toList, value := " x".toList, schema := none,
                 enabled := true }] }]

/-- C1 (counterexample): with an enabled entry whose value ` x` carries a
leading space, the serialized line `k= x` re-parses (values are trimmed) to
the pair `(k, x)`, so the original enabled pair `(k,  x)` is lost and the
two sets of enabled pairs differ. -/
theorem c1_roundtrip_counterexample :
    ("k".toList, " x".toList) ∈ enabledPairsSections c1Sections ∧
      ("k".toList, " x".toList) ∉ entryPairs (reparse c1Sections) := by
  decide

/-- C1 (amended): for sections whose names are newline-free and whose
enabled entries have trim-stable, newline-free keys and values, with no `=`
in a key and no key opening a comment, serializing with `save_content` and
re-parsing the produced text yields exactly the original enabled
`(key, value)` pairs; disabled entries vanish. -/
theorem c1_roundtrip_amended (sections : List ConfigSection) (h : LineSafe sections) :
    parse_config (FileView.content (splitNl (save_content sections)))
        = .ok (reparse sections) ∧
      entryPairs (reparse sections) = enabledPairsSections sections ∧
      ∀ kv : Str × Str,
        kv ∈ entryPairs (reparse sections) ↔ kv ∈ enabledPairsSections sections := by
  have hEq : entryPairs (reparse sections) = enabledPairsSections sections := by
    rw [reparse, entryPairs_contentEntries, save_content_eq_lines,
      splitNl_joinNl _ (noNl_saveLinesSpec h)]
    simp only [parsePairs]
    rw [List.filterMap_append, filterMap_parseLine_saveLines _ h]
    simp [List.filterMap, parseLine_nil]
  exact ⟨rfl, hEq, fun kv => by rw [hEq]⟩

def c1WitnessSections : List ConfigSection :=
  [{ name := "Network".toList,
     items :=
       [{ key := "port".toList, value := "9332".toList, schema := none,
          enabled := true },
        { key := "off".toList, value := "v".toList, schema := none,
          enabled := false }] }]

/-- C1 (witness): the amended round-trip evaluated on a concrete session. -/
theorem c1_roundtrip_witness :
    LineSafe c1WitnessSections ∧
      entryPairs (reparse c1WitnessSections) = enabledPairsSections c1WitnessSections :=
  ⟨by decide, (c1_roundtrip_amended c1WitnessSections (by decide)).2.1⟩

-- ### Claim C2

/-- C2 (counterexample): the claim maps `wallet_address` to Payouts, but the
Network rule (`address` substring) is evaluated before the Payouts rule, so
the classifier returns Network and a file containing only that key produces
a Network section and no Payouts section. -/
theorem c2_grouping_counterexample :
    p2poolSection "wallet_address".toList = "Network".toList ∧
      p2poolSection "wallet_address".toList ≠ "Payouts".toList ∧
      parse_p2pool_config ["wallet_address=abc".toList] =
        [{ title := "Network".toList,
           fields := [{ key := "wallet_address".toList, value := "abc".toList }] }] := by
  decide

/-- C2 (amended): the classifier evaluates the rules in order
(user/pass/auth, bitcoind prefix, port/address/listen, payout/wallet,
catch-all); on the key set of the claim, `rpcuser` goes to Authentication,
`bitcoind.rpcport` to Bitcoin Node, `listen_port` and `wallet_address` both
to Network (the Network rule fires on `address` before the Payouts rule is
reached), and `foo` to General Settings — so the resulting section set is
those four names, without a Payouts section. -/
theorem c2_grouping_amended :
    parse_p2pool_config
        ["rpcuser=a".toList, "bitcoind.rpcport=b".toList, "listen_port=c".toList,
         "wallet_address=d".toList, "foo=e".toList] =
      [{ title := "Authentication".toList,
         fields := [{ key := "rpcuser".toList, value := "a".toList }] },
       { title := "Bitcoin Node".toList,
         fields := [{ key := "bitcoind.rpcport".toList, value := "b".toList }] },
       { title := "General Settings".toList,
         fields := [{ key := "foo".toList, value := "e".toList }] },
       { title := "Network".toList,
         fields := [{ key := "listen_port".toList, value := "c".toList },
                    { key := "wallet_address".toList, value := "d".toList }] }]
      ∧ p2poolSection "rpcuser".toList = "Authentication".toList
      ∧ p2poolSection "bitcoind.rpcport".toList = "Bitcoin Node".toList
      ∧ p2poolSection "listen_port".toList = "Network".toList
      ∧ p2poolSection "wallet_address".toList = "Network".toList
      ∧ p2poolSection "foo".toList = "General Settings".toList := by
  decide

-- ### Claim C7

theorem mem_trimStr {c : Char} {l : Str} (h : c ∈ trimStr l) : c ∈ l := by
  rw [trimStr, List.mem_reverse] at h
  have h1 := (List.dropWhile_suffix wsChar).subset h
  rw [List.mem_reverse] at h1
  exact (List.dropWhile_suffix wsChar).subset h1

theorem p2poolStep_no_eq (m : List (Str × List P2pool.ConfigField)) (t : Str)
    (h : ('=' : Char) ∉ t) : p2poolStep m t = m := by
  unfold p2poolStep
  by_cases h1 : trimStr t = []
  · simp [h1]
  · rw [if_neg h1]
    by_cases h2 : (trimStr t).head? = some '#'
    · rw [if_pos h2]
    · rw [if_neg h2, splitFirstEq_no_eq (fun hm => h (mem_trimStr hm))]

/-- C7 (counterexample): a non-blank, non-comment line with no `=` is not
turned into a flag entry with value `1`; the p2pool parser's `split_once`
branch has no else arm, so the line `flag` produces no section and no field
at all. -/
theorem c7_flag_line_counterexample :
    parse_p2pool_config ["flag".toList] = [] := by
  decide

/-- C7 (amended): a line containing no `=` character is silently skipped by
the parser: prepending it to any input leaves the parse result unchanged,
and in particular no entry with value `1` is emitted for it. -/
theorem c7_no_equals_skipped (t : Str) (lines : List Str)
    (h : ('=' : Char) ∉ t) :
    parse_p2pool_config (t :: lines) = parse_p2pool_config lines := by
  unfold parse_p2pool_config
  rw [List.foldl_cons, p2poolStep_no_eq [] t h]

/-- C7 (witness): the amended skip property evaluated on a concrete file. -/
theorem c7_no_equals_skipped_witness :
    ('=' : Char) ∉ "flagline".toList ∧
      parse_p2pool_config ["flagline".toList, "a=b".toList] =
        parse_p2pool_config ["a=b".toList] :=
  ⟨by decide, c7_no_equals_skipped "flagline".toList ["a=b".toList] (by decide)⟩

-- ### Claim C4

theorem next_field_eq (e : ConfigEditor) (i : Nat)
    (htab : e.selected_tab < e.sections.length) (hf : e.field_state = some i)
    (hcount : 0 < fieldCount e) :
    next_field e = { e with field_state := some ((i + 1) % fieldCount e) } := by
  have hne : e.sections.isEmpty = false := by
    cases hs : e.sections with
    | nil => rw [hs] at htab; simp at htab
    | cons a t => rfl
  have hcz : ¬ fieldCount e = 0 := Nat.pos_iff_ne_zero.mp hcount
  unfold next_field
  rw [hne]
  simp only [Bool.false_eq_true, if_false, if_neg hcz, hf]

theorem next_field_iterate (e : ConfigEditor) (i : Nat) (k : Nat)
    (htab : e.selected_tab < e.sections.length) (hf : e.field_state = some i)
    (hi : i < fieldCount e) :
    next_field^[k] e = { e with field_state := some ((i + k) % fieldCount e) } := by
  induction k with
  | zero =>
      simp only [Function.iterate_zero, id_eq, Nat.add_zero, Nat.mod_eq_of_lt hi, ← hf]
  | succ k ih =>
      rw [Function.iterate_succ_apply', ih]
      have hcount : 0 < fieldCount e := Nat.lt_of_le_of_lt (Nat.zero_le i) hi
      have h1 := next_field_eq { e with field_state := some ((i + k) % fieldCount e) }
        ((i + k) % fieldCount e) htab rfl hcount
      rw [h1]
      have hfc : fieldCount { e with field_state := some ((i + k) % fieldCount e) }
          = fieldCount e := rfl
      rw [hfc, Nat.mod_add_mod, Nat.add_assoc]

/-- Filesystem oracle over an empty world: every call fails or is empty. -/
def trivFs : Fs :=
  { parentOf := fun _ => none, readDir := fun _ => none, isDir := fun _ => false,
    fileView := fun _ => FileView.notFound, writeOk := fun _ => false }

def c4App : App :=
  { current_screen := .editing, sidebar_index := 0,
    config_flow_return_screen := .home,
    sections := [{ name := "A".toList,
                   items := [{ key := "k1".toList, value := "v1".toList,
                               schema := none, enabled := true },
                             { key := "k2".toList, value := "v2".toList,
                               schema := none, enabled := true }] }],
    selected_section_index := 0, selected_item_index := 0, editing_value := [],
    config_list_state := some 0, config_file_path := none, notification := none,
    file_explorer := { current_dir := "/d".toList, files := [], list_state := none },
    running := true }

/-- C4 (counterexample): in the App's Editing screen, item navigation is not
cyclic: with a 2-item section starting at index 0, pressing Down twice ends
at index 1 (not back at 0), and pressing Up at index 0 stays at 0 instead of
wrapping to index 1. -/
theorem c4_item_navigation_counterexample :
    (handle_key_event trivFs
        (handle_key_event trivFs c4App { code := .down, ctrl := false })
        { code := .down, ctrl := false }).selected_item_index = 1 ∧
      (handle_key_event trivFs c4App
        { code := .up, ctrl := false }).selected_item_index = 0 := by
  decide

/-- C4 (amended): the cyclic behavior the claim states holds for the
`ConfigEditor` field navigation: with the tab in range, `next_field` applied
item-count many times returns the cursor to its start, `previous_field` at
index 0 lands on the last index, and both are no-ops when the selected
section has zero items. The App's Editing-screen Up/Down handlers instead
clamp at the ends (see the counterexample). -/
theorem c4_item_navigation_amended (e : ConfigEditor)
    (htab : e.selected_tab < e.sections.length) :
    (∀ i, e.field_state = some i → i < fieldCount e →
        (next_field^[fieldCount e] e).field_state = some i)
      ∧ (e.field_state = some 0 → 0 < fieldCount e →
          (previous_field e).field_state = some (fieldCount e - 1))
      ∧ (fieldCount e = 0 → next_field e = e ∧ previous_field e = e) := by
  have hne : e.sections.isEmpty = false := by
    cases hs : e.sections with
    | nil => rw [hs] at htab; simp at htab
    | cons a t => rfl
  refine ⟨?_, ?_, ?_⟩
  · intro i hf hi
    rw [next_field_iterate e i (fieldCount e) htab hf hi]
    simp [Nat.add_mod_right, Nat.mod_eq_of_lt hi]
  · intro hf hcount
    have hcz : ¬ fieldCount e = 0 := Nat.pos_iff_ne_zero.mp hcount
    unfold previous_field
    rw [hne]
    simp only [Bool.false_eq_true, if_false, if_neg hcz, hf]
    simp
  · intro hc
    unfold next_field previous_field
    rw [hne]
    simp [hc]

def c4Editor : ConfigEditor :=
  { sections := [{ title := "A".toList,
                   fields := [{ key := "k1".toList, value := "v1".toList },
                              { key := "k2".toList, value := "v2".toList }] }],
    selected_tab := 0, field_state := some 0 }

/-- C4 (witness): the amended cyclic navigation evaluated on a two-field
editor. -/
theorem c4_item_navigation_witness :
    c4Editor.selected_tab < c4Editor.sections.length ∧
      (next_field^[fieldCount c4Editor] c4Editor).field_state = some 0 ∧
      (previous_field c4Editor).field_state = some (fieldCount c4Editor - 1) :=
  ⟨by decide,
    (c4_item_navigation_amended c4Editor (by decide)).1 0 rfl (by decide),
    (c4_item_navigation_amended c4Editor (by decide)).2.1 rfl (by decide)⟩

-- ### Claim C5

/-- The entry at section `i`, item `j` of a session, when both exist. -/
def entryAt (app : App) (i j : Nat) : Option ConfigEntry :=
  (app.sections.get? i).bind (fun sec => sec.items.get? j)

theorem get?_set_self_of_get? {α : Type} {l : List α} {i : Nat} {b : α} (a : α)
    (h : l.get? i = some b) : (l.set i a).get? i = some a := by
  rw [List.get?_eq_getElem?, List.getElem?_set_self (List.get?_eq_some.mp h).1]

theorem setEntry_get {sections : List ConfigSection} {i j : Nat}
    {sec : ConfigSection} (e' : ConfigEntry)
    (hsec : sections.get? i = some sec) :
    (setEntry sections i j e').get? i = some { sec with items := sec.items.set j e' } := by
  unfold setEntry
  rw [hsec]
  exact get?_set_self_of_get? _ hsec

/-- Evaluation of the Editing-screen Enter handler on a boolean entry
(src/app.rs lines 427-449): the stored value is toggled between `0` and `1`,
the entry is force-enabled, and no other state changes — in particular the
screen stays where it was. -/
theorem handle_enter_editing_bool (fs : Fs) (app : App) (sec : ConfigSection)
    (entry : ConfigEntry) (sch : ConfigSchema)
    (hscr : app.current_screen = CurrentScreen.editing)
    (hsec : app.sections.get? app.selected_section_index = some sec)
    (hent : sec.items.get? app.selected_item_index = some entry)
    (hsch : entry.schema = some sch)
    (hbool : sch.value_type = ConfigType.boolean) :
    handle_key_event fs app { code := .enter, ctrl := false } =
      { app with
          notification := none,
          sections := setEntry app.sections app.selected_section_index
            app.selected_item_index
            { entry with
                value := if entry.value = "1".toList then "0".toList else "1".toList,
                enabled := true } } := by
  obtain ⟨cs, si, cf, secs, ssi, sii, ev, cls, cfp, no, fe, ru⟩ := app
  have hscr' : cs = CurrentScreen.editing := hscr
  subst hscr'
  have hsec' : secs.get? ssi = some sec := hsec
  have hent' : sec.items.get? sii = some entry := hent
  have hsec2 : secs[ssi]? = some sec := by
    rw [← List.get?_eq_getElem?]; exact hsec'
  have hent2 : sec.items[sii]? = some entry := by
    rw [← List.get?_eq_getElem?]; exact hent'
  simp only [handle_key_event, Bool.false_and, Bool.false_eq_true, if_false]
  simp [hsec', hent', hsec2, hent2, hsch, hbool]

def boolSchema : ConfigSchema :=
  { key := "txindex".toList, value_type := .boolean, sectionName := "Core".toList,
    description := "".toList, default := "0".toList }

def c5App : App :=
  { current_screen := .editing, sidebar_index := 0,
    config_flow_return_screen := .home,
    sections := [{ name := "Core".toList,
                   items := [{ key := "txindex".toList, value := "abc".toList,
                               schema := some boolSchema, enabled := false }] }],
    selected_section_index := 0, selected_item_index := 0, editing_value := [],
    config_list_state := some 0, config_file_path := none, notification := none,
    file_explorer := { current_dir := "/d".toList, files := [], list_state := none },
    running := true }

/-- C5 (counterexample): pair idempotence fails for an arbitrary starting
value string: a boolean entry whose stored value is `abc` toggles to `1` and
then to `0`, so two activations do not restore the original representation. -/
theorem c5_boolean_toggle_counterexample :
    entryAt
        (handle_key_event trivFs
          (handle_key_event trivFs c5App { code := .enter, ctrl := false })
          { code := .enter, ctrl := false }) 0 0 =
      some { key := "txindex".toList, value := "0".toList,
             schema := some boolSchema, enabled := true } ∧
      ("0".toList : Str) ≠ "abc".toList := by
  decide

/-- C5 (amended): activating a boolean entry flips its stored value with
`if value = "1" then "0" else "1"`, forces `enabled := true`, and stays on
the Editing screen (no edit mode is entered); activating twice restores the
original value string provided the starting value was `"0"` or `"1"` (for
any other starting string the pair of activations ends at `"0"`). -/
theorem c5_boolean_toggle_amended (fs : Fs) (app : App) (sec : ConfigSection)
    (entry : ConfigEntry) (sch : ConfigSchema)
    (hscr : app.current_screen = CurrentScreen.editing)
    (hsec : app.sections.get? app.selected_section_index = some sec)
    (hent : sec.items.get? app.selected_item_index = some entry)
    (hsch : entry.schema = some sch)
    (hbool : sch.value_type = ConfigType.boolean) :
    (handle_key_event fs app { code := .enter, ctrl := false }).current_screen
        = CurrentScreen.editing ∧
      entryAt (handle_key_event fs app { code := .enter, ctrl := false })
          app.selected_section_index app.selected_item_index =
        some { entry with
                 value := if entry.value = "1".toList then "0".toList else "1".toList,
                 enabled := true } ∧
      ((entry.value = "0".toList ∨ entry.value = "1".toList) →
        entryAt
            (handle_key_event fs
              (handle_key_event fs app { code := .enter, ctrl := false })
              { code := .enter, ctrl := false })
            app.selected_section_index app.selected_item_index =
          some { entry with enabled := true }) := by
  have h1 := handle_enter_editing_bool fs app sec entry sch hscr hsec hent hsch hbool
  refine ⟨?_, ?_, ?_⟩
  · rw [h1]; exact hscr
  · rw [h1]
    show ((setEntry app.sections app.selected_section_index app.selected_item_index
        { entry with
            value := if entry.value = "1".toList then "0".toList else "1".toList,
            enabled := true }).get? app.selected_section_index).bind
        (fun s => s.items.get? app.selected_item_index) = _
    rw [setEntry_get _ hsec, Option.some_bind]
    exact get?_set_self_of_get? _ hent
  · intro hv
    have hscr1 : (handle_key_event fs app
        { code := .enter, ctrl := false }).current_screen = CurrentScreen.editing := by
      rw [h1]; exact hscr
    have hsec1 : (handle_key_event fs app
          { code := .enter, ctrl := false }).sections.get?
          (handle_key_event fs app
            { code := .enter, ctrl := false }).selected_section_index =
        some { sec with
                 items := sec.items.set app.selected_item_index
                   { entry with
                       value := if entry.value = "1".toList then "0".toList
                         else "1".toList,
                       enabled := true } } := by
      rw [h1]
      exact setEntry_get _ hsec
    have hent1 : ({ sec with
          items := sec.items.set app.selected_item_index
            { entry with
                value := if entry.value = "1".toList then "0".toList else "1".toList,
                enabled := true } } : ConfigSection).items.get?
          (handle_key_event fs app
            { code := .enter, ctrl := false }).selected_item_index =
        some { entry with
                 value := if entry.value = "1".toList then "0".toList else "1".toList,
                 enabled := true } := by
      rw [h1]
      exact get?_set_self_of_get? _ hent
    have hsch1 : ({ entry with
        value := if entry.value = "1".toList then "0".toList else "1".toList,
        enabled := true } : ConfigEntry).schema = some sch := hsch
    have h2 := handle_enter_editing_bool fs
      (handle_key_event fs app { code := .enter, ctrl := false }) _ _ sch
      hscr1 hsec1 hent1 hsch1 hbool
    rw [h2]
    show ((setEntry (handle_key_event fs app
          { code := .enter, ctrl := false }).sections
          (handle_key_event fs app
            { code := .enter, ctrl := false }).selected_section_index
          (handle_key_event fs app
            { code := .enter, ctrl := false }).selected_item_index _).get?
          app.selected_section_index).bind
        (fun s => s.items.get? app.selected_item_index) = _
    rw [h1]
    rw [setEntry_get _ (setEntry_get _ hsec), Option.some_bind]
    rw [get?_set_self_of_get? _ (get?_set_self_of_get? _ hent)]
    rcases hv with hv | hv
    · rw [hv, if_neg (by decide : ¬("0".toList : Str) = "1".toList), if_pos rfl]
    · rw [hv, if_pos rfl, if_neg (by decide : ¬("0".toList : Str) = "1".toList)]

def c5WitSec : ConfigSection :=
  { name := "Core".toList,
    items := [{ key := "txindex".toList, value := "1".toList,
                schema := some boolSchema, enabled := true }] }

def c5WitApp : App := { c5App with sections := [c5WitSec] }

/-- C5 (witness): the amended boolean toggle evaluated on a concrete session
whose boolean entry starts at `1`. -/
theorem c5_boolean_toggle_witness :
    c5WitApp.current_screen = CurrentScreen.editing ∧
      entryAt
          (handle_key_event trivFs
            (handle_key_event trivFs c5WitApp { code := .enter, ctrl := false })
            { code := .enter, ctrl := false }) 0 0 =
        some { key := "txindex".toList, value := "1".toList,
               schema := some boolSchema, enabled := true } :=
  ⟨rfl,
    (c5_boolean_toggle_amended trivFs c5WitApp c5WitSec
        { key := "txindex".toList, value := "1".toList, schema := some boolSchema,
          enabled := true } boolSchema rfl rfl rfl rfl rfl).2.2 (Or.inr rfl)⟩

-- ### Claim C8

theorem fixSelection_cases (F : List Str) (st : Option Nat) :
    (F = [] → fixSelection F st = none) ∧
      (∀ i, st = some i → i < F.length → fixSelection F st = some i) ∧
      (∀ i, st = some i → F ≠ [] → F.length ≤ i →
        fixSelection F st = some (F.length - 1)) := by
  refine ⟨?_, ?_, ?_⟩
  · intro h; simp [fixSelection, h]
  · intro i hst hi
    have hne : F.isEmpty = false := by
      cases F with
      | nil => simp at hi
      | cons a t => rfl
    simp [fixSelection, hne, hst, Nat.not_le.mpr hi]
  · intro i hst hne hle
    have hne' : F.isEmpty = false := by
      cases F with
      | nil => exact absurd rfl hne
      | cons a t => rfl
    simp [fixSelection, hne', hst, hle]

theorem refresh_files_list_state (fs : Fs) (s : FileExplorerState) :
    (refresh_files fs s).list_state
      = fixSelection (refresh_files fs s).files s.list_state := rfl

/-- C8: refreshing the explorer keeps the current selection index when it is
still a valid index into the new list, clamps it to the last valid index
when it is out of range, and clears it entirely when the new list is empty. -/
theorem c8_refresh_selection (fs : Fs) (s : FileExplorerState) :
    ((refresh_files fs s).files = [] → (refresh_files fs s).list_state = none) ∧
      (∀ i, s.list_state = some i → i < (refresh_files fs s).files.length →
        (refresh_files fs s).list_state = some i) ∧
      (∀ i, s.list_state = some i → (refresh_files fs s).files ≠ [] →
        (refresh_files fs s).files.length ≤ i →
        (refresh_files fs s).list_state
          = some ((refresh_files fs s).files.length - 1)) := by
  have h := fixSelection_cases (refresh_files fs s).files s.list_state
  rw [← refresh_files_list_state] at h
  exact h

def c8Fs : Fs :=
  { parentOf := fun _ => none, readDir := fun _ => some ["/x/f1".toList],
    isDir := fun _ => false, fileView := fun _ => FileView.notFound,
    writeOk := fun _ => false }

def c8State : FileExplorerState :=
  { current_dir := "/x".toList,
    files := ["p".toList, "q".toList, "r".toList], list_state := some 2 }

/-- C8 (witness): a refresh that shrinks the listing clamps the stale
selection index 2 to the new last index. -/
theorem c8_refresh_selection_witness :
    c8State.list_state = some 2 ∧ (refresh_files c8Fs c8State).files ≠ [] ∧
      (refresh_files c8Fs c8State).files.length ≤ 2 ∧
      (refresh_files c8Fs c8State).list_state
        = some ((refresh_files c8Fs c8State).files.length - 1) :=
  ⟨rfl, by decide, by decide,
    (c8_refresh_selection c8Fs c8State).2.2 2 rfl (by decide) (by decide)⟩

-- ### Claims C9 and C10

/-- Evaluation of the FileExplorer Enter handler when the selected entry is
a plain file: `config_file_path` is assigned first, the load then always
succeeds (`parse_config` never fails), the parsed entries are grouped into
sections with the cursors reset, and the screen becomes Editing; the
notification was cleared on key entry. The handler's remain-on-FileExplorer
failure arm is unreachable. -/
theorem explorer_enter_file (fs : Fs) (app : App) (idx : Nat) (p : Str)
    (hscr : app.current_screen = CurrentScreen.fileExplorer)
    (hsel : app.file_explorer.list_state = some idx)
    (hget : app.file_explorer.files.get? idx = some p)
    (hpar : isParentEntry p = false)
    (hdir : fs.isDir p = false) :
    handle_key_event fs app { code := .enter, ctrl := false } =
      { app with
          notification := none,
          config_file_path := some p,
          sections := groupSections (parseEntries (fs.fileView p)),
          selected_section_index := 0,
          selected_item_index := 0,
          config_list_state := some 0,
          current_screen := CurrentScreen.editing } := by
  obtain ⟨cs, si, cf, secs, ssi, sii, ev, cls, cfp, no, fe, ru⟩ := app
  have hscr' : cs = CurrentScreen.fileExplorer := hscr
  subst hscr'
  have hsel' : fe.list_state = some idx := hsel
  have hget' : fe.files.get? idx = some p := hget
  have hget2 : fe.files[idx]? = some p := by
    rw [← List.get?_eq_getElem?]; exact hget'
  simp only [handle_key_event, Bool.false_and, Bool.false_eq_true, if_false]
  simp only [explorerEnter]
  simp [hsel', hget', hget2, hpar, hdir, load_config, parse_config]

def c9Fs : Fs :=
  { parentOf := fun _ => none, readDir := fun _ => none, isDir := fun _ => false,
    fileView := fun _ => FileView.readError, writeOk := fun _ => false }

def c9App : App :=
  { current_screen := .fileExplorer, sidebar_index := 0,
    config_flow_return_screen := .bitcoinConfig,
    sections := [{ name := "Old".toList, items := [] }],
    selected_section_index := 0, selected_item_index := 0, editing_value := [],
    config_list_state := some 0, config_file_path := none,
    notification := some "old".toList,
    file_explorer := { current_dir := "/c".toList,
                       files := ["/c/f.conf".toList], list_state := some 0 },
    running := true }

/-- C9 (counterexample): on a real read failure — the selected file exists
but cannot be read — the session does not stay on FileExplorer:
`parse_config` catches the error and returns `Ok` with the disabled schema
defaults, so Enter transitions to Editing and populates the sections (the
seven schema sections), against the claim's no-transition, no-population
promise. -/
theorem c9_failed_read_counterexample :
    parse_config (c9Fs.fileView "/c/f.conf".toList)
        = .ok (get_default_schema.map fun s =>
            { key := s.key, value := s.default, schema := some s,
              enabled := false }) ∧
      (handle_key_event c9Fs c9App { code := .enter, ctrl := false }).current_screen
          = CurrentScreen.editing ∧
      (handle_key_event c9Fs c9App { code := .enter, ctrl := false }).sections
          ≠ c9App.sections ∧
      (handle_key_event c9Fs c9App
          { code := .enter, ctrl := false }).sections.length = 7 :=
  ⟨rfl, by decide, by decide, by decide⟩

/-- C9 (amended): loading a file from the explorer never fails —
`parse_config` answers every filesystem outcome with `Ok` (src/config.rs
lines 336-349 catch every build error) — so activating a plain file always
transitions to Editing and populates the sections with the grouped parse
result (for an unreadable file: the disabled schema defaults); the
notification is cleared. The handler's remain-on-FileExplorer failure
branch (src/app.rs line 369) is dead code. -/
theorem c9_file_open_always_edits (fs : Fs) (app : App) (idx : Nat) (p : Str)
    (hscr : app.current_screen = CurrentScreen.fileExplorer)
    (hsel : app.file_explorer.list_state = some idx)
    (hget : app.file_explorer.files.get? idx = some p)
    (hpar : isParentEntry p = false)
    (hdir : fs.isDir p = false) :
    (handle_key_event fs app { code := .enter, ctrl := false }).current_screen
        = CurrentScreen.editing ∧
      (handle_key_event fs app { code := .enter, ctrl := false }).sections
        = groupSections (parseEntries (fs.fileView p)) ∧
      (handle_key_event fs app { code := .enter, ctrl := false }).notification
        = none := by
  rw [explorer_enter_file fs app idx p hscr hsel hget hpar hdir]
  exact ⟨rfl, rfl, rfl⟩

/-- C9 (witness): the always-transitions behavior evaluated on a session
whose filesystem reports a read error for the selected file. -/
theorem c9_file_open_always_edits_witness :
    c9App.current_screen = CurrentScreen.fileExplorer ∧
      (handle_key_event c9Fs c9App { code := .enter, ctrl := false }).current_screen
          = CurrentScreen.editing ∧
      (handle_key_event c9Fs c9App { code := .enter, ctrl := false }).notification
          = none :=
  ⟨rfl,
    (c9_file_open_always_edits c9Fs c9App 0 "/c/f.conf".toList rfl rfl rfl
      (by decide) rfl).1,
    (c9_file_open_always_edits c9Fs c9App 0 "/c/f.conf".toList rfl rfl rfl
      (by decide) rfl).2.2⟩

/-- C10: `config_file_path` is assigned the selected path before the load is
attempted (src/app.rs line 368). The load in fact never fails, so the
assignment stands for every filesystem outcome — in particular a file whose
read fails (the only realizable failure) still leaves `config_file_path`
pointing at that path; the operation is not atomic with respect to it. -/
theorem c10_path_assigned_before_load (fs : Fs) (app : App) (idx : Nat) (p : Str)
    (hscr : app.current_screen = CurrentScreen.fileExplorer)
    (hsel : app.file_explorer.list_state = some idx)
    (hget : app.file_explorer.files.get? idx = some p)
    (hpar : isParentEntry p = false)
    (hdir : fs.isDir p = false) :
    (handle_key_event fs app { code := .enter, ctrl := false }).config_file_path
      = some p := by
  rw [explorer_enter_file fs app idx p hscr hsel hget hpar hdir]

/-- C10 (witness): the path assignment evaluated on a session whose
filesystem reports a read error for the selected file. -/
theorem c10_path_assigned_before_load_witness :
    c9Fs.fileView "/c/f.conf".toList = FileView.readError ∧
      (handle_key_event c9Fs c9App
          { code := .enter, ctrl := false }).config_file_path
        = some "/c/f.conf".toList :=
  ⟨rfl, c10_path_assigned_before_load c9Fs c9App 0 "/c/f.conf".toList rfl rfl rfl
    (by decide) rfl⟩
